import Mathlib

/-!
Verification development for the `btech_uv_programmer` package: a shallow
embedding of `models.py` (the validated `RadioChannelConfig` value model) and
`programmer.py` (the `BtechUvProProgrammer` station registry and its CSV
codec), with theorems about the embedded operations.

Modelling conventions:
* Python `int` is `Int`; the Python `float` arithmetic in `mhz_to_hz` is
  modelled bit-exactly as IEEE-754 binary64: `PyFloat` is a dyadic value
  `mant * 2^exp`, a decimal literal is correctly rounded to 53 bits of
  mantissa (round to nearest, ties to even — what CPython's literal parser
  does), float multiplication rounds the exact product the same way, and
  `int(...)` truncates toward zero.  All of it is integer arithmetic, so the
  kernel can evaluate it.
* The registry field `self.stations` is a Python `dict[int, ... | None]`,
  modelled as an insertion-ordered association list `List (Int × Option _)`:
  assignment to an existing key updates it in place, assignment to a fresh
  key appends it, and iteration follows the list order.
* Exceptions are modelled with `Except Err`; `load_csv_config`, which
  mutates `self.stations` before it can raise, returns its final state
  together with an optional error.
* CSV input/output is modelled at the parsed-row level (`List (List String)`,
  one inner list of cells per line): this is the representation Python's
  `csv` module exposes, a blank line being the empty row `[]`.  `DictReader`
  silently skips such empty rows (CPython `csv.DictReader.__next__`), which
  the decoder model reproduces.
* Pydantic's lax string-to-int coercion is modelled by `strToInt?`,
  which agrees with it on every canonically rendered integer cell (the only
  cells the claims touch); enum cells are matched against their canonical
  rendered forms, as pydantic does for `IntEnum`/`StrEnum` values.
-/

/-! ## models.py -/

inductive TransmitPower where
  | H
  | M
  | L
deriving DecidableEq, Repr

inductive FmBandwidth where
  | WIDE
  | NARROW
deriving DecidableEq, Repr

/-- `FmBandwidth` is an `IntEnum`: WIDE = 25000, NARROW = 12500. -/
def FmBandwidth.value : FmBandwidth → Int
  | .WIDE => 25000
  | .NARROW => 12500

inductive Modulation where
  | FM
  | AM
deriving DecidableEq, Repr

/-- `Modulation` is an `IntEnum`: FM = 0, AM = 1. -/
def Modulation.value : Modulation → Int
  | .FM => 0
  | .AM => 1

inductive Toggle where
  | ENABLED
  | DISABLED
deriving DecidableEq, Repr

/-- `Toggle` is an `IntEnum`: ENABLED = 1, DISABLED = 0. -/
def Toggle.value : Toggle → Int
  | .ENABLED => 1
  | .DISABLED => 0

/-- The error kinds the package can raise: pydantic validation failures
(`ValidationError`, wrapping the `RadioConfigurationError`s thrown by the
field validators), registry-level `RadioConfigurationError`s, `IndexError`
from the index bound check, and `KeyError` from reading a missing dict key. -/
inductive Err where
  | validationError
  | configurationError
  | indexError
  | keyError
deriving DecidableEq, Repr

/-- `RadioChannelConfig` (models.py): one station's settings.  Field order
matches `model_fields` order in the source. -/
structure RadioChannelConfig where
  title : String
  tx_freq : Int
  rx_freq : Int
  tx_sub_audio : Int := 0
  rx_sub_audio : Int := 0
  tx_power : TransmitPower := .H
  bandwidth : FmBandwidth := .WIDE
  scan : Toggle := .DISABLED
  talk_around : Toggle := .DISABLED
  pre_de_emph_bypass : Toggle := .DISABLED
  sign : Toggle := .DISABLED
  tx_dis : Toggle := .DISABLED
  bclo : Toggle := .DISABLED
  mute : Toggle := .DISABLED
  rx_modulation : Modulation := .FM
  tx_modulation : Modulation := .FM
deriving DecidableEq, Repr

/-- The `tx_freq`/`rx_freq` field validator's rejection condition
(models.py `RadioChannelConfig.validate`): raise when the value fails the
VHF check (`value < 136e6 or value > 174e6`) and also fails the UHF check
(`value < 400e6 or value >= 520e6`). -/
def freqRejected (value : Int) : Bool :=
  (decide (value < 136000000) || decide (value > 174000000)) &&
    (decide (value < 400000000) || decide (520000000 ≤ value))

/-- The `title` field validator's rejection condition (models.py
`RadioChannelConfig.validate_title`): raise when `len(value) > 8`. -/
def titleRejected (value : String) : Bool :=
  decide (value.length > 8)

/-- Constructing a `RadioChannelConfig`: pydantic runs the two field
validators (title length, frequency bands) and fails with a
`ValidationError` if any rejects.  All sixteen fields are passed explicitly;
the call sites that rely on defaults spell them out. -/
def mkChannelConfig (title : String) (tx_freq rx_freq : Int)
    (tx_sub_audio rx_sub_audio : Int) (tx_power : TransmitPower)
    (bandwidth : FmBandwidth)
    (scan talk_around pre_de_emph_bypass sign tx_dis bclo mute : Toggle)
    (rx_modulation tx_modulation : Modulation) :
    Except Err RadioChannelConfig :=
  if titleRejected title then .error .validationError
  else if freqRejected tx_freq then .error .validationError
  else if freqRejected rx_freq then .error .validationError
  else .ok
    { title := title, tx_freq := tx_freq, rx_freq := rx_freq,
      tx_sub_audio := tx_sub_audio, rx_sub_audio := rx_sub_audio,
      tx_power := tx_power, bandwidth := bandwidth, scan := scan,
      talk_around := talk_around, pre_de_emph_bypass := pre_de_emph_bypass,
      sign := sign, tx_dis := tx_dis, bclo := bclo, mute := mute,
      rx_modulation := rx_modulation, tx_modulation := tx_modulation }

/-- A config that would pass construction: what the spec calls a valid
`ChannelConfig`. -/
def validCfg (c : RadioChannelConfig) : Prop :=
  titleRejected c.title = false ∧ freqRejected c.tx_freq = false ∧
    freqRejected c.rx_freq = false

instance (c : RadioChannelConfig) : Decidable (validCfg c) := by
  unfold validCfg; infer_instance

/-! ## programmer.py: utilities -/

/-- Bit length of a natural number (structural fuel recursion so the kernel
can evaluate it; 256 bits covers every number in this development). -/
def bitLenAux : Nat → Nat → Nat
  | 0, _ => 0
  | _ + 1, 0 => 0
  | fuel + 1, n + 1 => bitLenAux fuel ((n + 1) / 2) + 1

def bitLen (n : Nat) : Nat := bitLenAux 256 n

/-- Round `a / b` to the nearest integer, ties to even (the IEEE-754
default rounding). -/
def roundMantissa (a b : Nat) : Nat :=
  let m0 := a / b
  let r := a % b
  if 2 * r < b then m0
  else if 2 * r > b then m0 + 1
  else if m0 % 2 = 0 then m0 else m0 + 1

/-- Correctly round the positive rational `p / q` to an IEEE-754 binary64
value `(mantissa, exponent)`: scale so the quotient has 53 or 54 bits, then
round on the 53-bit grid (ties to even).  Overflow and subnormals cannot
occur at the magnitudes this development uses. -/
def roundRatToDouble (p q : Nat) : Nat × Int :=
  if p = 0 then (0, 0)
  else
    let s : Int := 53 + (bitLen q : Int) - (bitLen p : Int)
    let a := p * 2 ^ s.toNat
    let b := q * 2 ^ (-s).toNat
    if a / b < 2 ^ 53 then (roundMantissa a b, -s)
    else (roundMantissa a (2 * b), -s + 1)

/-- A nonnegative CPython float (IEEE-754 binary64): the dyadic value
`mant * 2^exp`. -/
structure PyFloat where
  mant : Nat
  exp : Int
deriving DecidableEq, Repr

/-- The float a Python decimal literal `n / 10^k` denotes: the correctly
rounded double (CPython's literal parser rounds to nearest, ties to
even). -/
def floatOfDecimal (n k : Nat) : PyFloat :=
  let me := roundRatToDouble n (10 ^ k)
  ⟨me.1, me.2⟩

/-- IEEE-754 binary64 multiplication: correctly round the exact product. -/
def mulFloat (x y : PyFloat) : PyFloat :=
  let E := x.exp + y.exp
  let me :=
    if 0 ≤ E then roundRatToDouble (x.mant * y.mant * 2 ^ E.toNat) 1
    else roundRatToDouble (x.mant * y.mant) (2 ^ (-E).toNat)
  ⟨me.1, me.2⟩

/-- Python `int(...)` on a nonnegative float: truncation toward zero. -/
def pyIntOfFloat (x : PyFloat) : Int :=
  if 0 ≤ x.exp then (x.mant : Int) * 2 ^ x.exp.toNat
  else ((x.mant / 2 ^ (-x.exp).toNat : Nat) : Int)

/-- `BtechUvProProgrammer.mhz_to_hz`: `int(mhz * 10e6)` in float
arithmetic.  Note the literal `10e6` is the float `10 * 10^6 = 10^7`
(exactly representable), not `10^6`. -/
def mhz_to_hz (mhz : PyFloat) : Int :=
  pyIntOfFloat (mulFloat mhz (floatOfDecimal 10000000 0))

/-- The dict `self.stations`: insertion-ordered `int`-keyed map to an
optional config. -/
abbrev Stations := List (Int × Option RadioChannelConfig)

/-- Python dict assignment `d[k] = v`: update in place when `k` is present
(keeping its position), append `(k, v)` otherwise. -/
def dictSet (d : Stations) (k : Int) (v : Option RadioChannelConfig) :
    Stations :=
  if d.any (fun kv => kv.1 = k) then
    d.map (fun kv => if kv.1 = k then (k, v) else kv)
  else
    d ++ [(k, v)]

/-- Python dict read `d[k]`: `some` of the stored value when present
(`KeyError` at the call sites otherwise). -/
def dictGet? (d : Stations) (k : Int) : Option (Option RadioChannelConfig) :=
  (d.find? (fun kv => kv.1 = k)).map (fun kv => kv.2)

/-- `BtechUvProProgrammer`: capacity `max_stations` and the stations dict. -/
structure BtechUvProProgrammer where
  max_stations : Int
  stations : Stations
deriving DecidableEq, Repr

/-- `clear_config`: `self.stations = {i: None for i in range(self.max_stations)}`. -/
def clear_config (p : BtechUvProProgrammer) : BtechUvProProgrammer :=
  { p with
    stations := (List.range p.max_stations.toNat).map
      (fun (i : Nat) => ((i : Int), none)) }

/-- `__init__(max_stations)`: store the capacity and clear. -/
def newProgrammer (max_stations : Int) : BtechUvProProgrammer :=
  clear_config { max_stations := max_stations, stations := [] }

/-- `__check_stations__`: raise `RadioConfigurationError` when
`len(self.stations) > self.max_stations`. -/
def check_stations (p : BtechUvProProgrammer) : Option Err :=
  if (p.stations.length : Int) > p.max_stations then
    some .configurationError
  else
    none

/-- `__check_station_index__`: raise `IndexError` when
`index > self.max_stations - 1` (no lower bound is checked). -/
def check_station_index (p : BtechUvProProgrammer) (index : Int) :
    Option Err :=
  if index > p.max_stations - 1 then some .indexError else none

/-! ## programmer.py: registry operations -/

/-- `set_station`: bound check, then `self.stations[channel_index] = channel_config`. -/
def set_station (p : BtechUvProProgrammer) (channel_index : Int)
    (channel_config : RadioChannelConfig) :
    Except Err BtechUvProProgrammer :=
  match check_station_index p channel_index with
  | some e => .error e
  | none =>
    .ok { p with
          stations := dictSet p.stations channel_index (some channel_config) }

/-- `delete_station`: bound check; reading a key the dict does not hold is a
`KeyError`; an already-empty slot is a logged no-op; otherwise the slot is
set to `None`. -/
def delete_station (p : BtechUvProProgrammer) (channel_index : Int) :
    Except Err BtechUvProProgrammer :=
  match check_station_index p channel_index with
  | some e => .error e
  | none =>
    match dictGet? p.stations channel_index with
    | none => .error .keyError
    | some none => .ok p
    | some (some _) =>
      .ok { p with stations := dictSet p.stations channel_index none }

/-- `append_station`: first dict entry whose value is falsy (`None`) gets
the config via `set_station`; `RadioConfigurationError` when none is. -/
def append_station (p : BtechUvProProgrammer)
    (channel_config : RadioChannelConfig) :
    Except Err BtechUvProProgrammer :=
  match p.stations.find? (fun kv => kv.2 = none) with
  | some kv => set_station p kv.1 channel_config
  | none => .error .configurationError

/-- `search_by_title`: first entry whose config is present and has the given
title, as `(index, config)`; `RadioConfigurationError` otherwise. -/
def search_by_title (p : BtechUvProProgrammer) (title : String) :
    Except Err (Int × RadioChannelConfig) :=
  match p.stations.find?
      (fun kv => match kv.2 with
        | some c => c.title = title
        | none => false) with
  | some (i, some c) => .ok (i, c)
  | _ => .error .configurationError

/-! ## programmer.py: preset constructors -/

/-- `load_natnl_aprs`: build the APRS config (title `APRS`, both
frequencies `mhz_to_hz(144.39)`), force `mute = Toggle.ENABLED`, then append
when `not channel_index` (`None` or `0` — both are falsy) and `set_station`
otherwise. -/
def load_natnl_aprs (p : BtechUvProProgrammer)
    (channel_index : Option Int) : Except Err BtechUvProProgrammer := do
  let channel ← mkChannelConfig "APRS" (mhz_to_hz (floatOfDecimal 14439 2))
    (mhz_to_hz (floatOfDecimal 14439 2))
    0 0 .H .WIDE .DISABLED .DISABLED .DISABLED .DISABLED .DISABLED .DISABLED
    .DISABLED .FM .FM
  let channel := { channel with mute := Toggle.ENABLED }
  match channel_index with
  | none => append_station p channel
  | some i => if i = 0 then append_station p channel else set_station p i channel

/-- `load_natnl_2m_simplex`: title `146.520`, both frequencies
`mhz_to_hz(146.52)`. -/
def load_natnl_2m_simplex (p : BtechUvProProgrammer)
    (channel_index : Option Int) : Except Err BtechUvProProgrammer := do
  let channel ← mkChannelConfig "146.520" (mhz_to_hz (floatOfDecimal 14652 2))
    (mhz_to_hz (floatOfDecimal 14652 2))
    0 0 .H .WIDE .DISABLED .DISABLED .DISABLED .DISABLED .DISABLED .DISABLED
    .DISABLED .FM .FM
  match channel_index with
  | none => append_station p channel
  | some i => if i = 0 then append_station p channel else set_station p i channel

/-- `load_natnl_70cm_simplex`: title `446.000`, both frequencies
`mhz_to_hz(446.0)`. -/
def load_natnl_70cm_simplex (p : BtechUvProProgrammer)
    (channel_index : Option Int) : Except Err BtechUvProProgrammer := do
  let channel ← mkChannelConfig "446.000" (mhz_to_hz (floatOfDecimal 4460 1))
    (mhz_to_hz (floatOfDecimal 4460 1))
    0 0 .H .WIDE .DISABLED .DISABLED .DISABLED .DISABLED .DISABLED .DISABLED
    .DISABLED .FM .FM
  match channel_index with
  | none => append_station p channel
  | some i => if i = 0 then append_station p channel else set_station p i channel

/-! ## programmer.py: CSV codec -/

/-- `__get_csv_headers__`: one label per model field, the alias when one is
declared and the field name otherwise, in `model_fields` order. -/
def csvHeaders : List String :=
  [ "title", "tx_freq", "rx_freq",
    "tx_sub_audio(CTCSS=freq/DCS=number)",
    "rx_sub_audio(CTCSS=freq/DCS=number)",
    "tx_power(H/M/L)",
    "bandwidth(12500/25000)",
    "scan(0=OFF/1=ON)",
    "talk around(0=OFF/1=ON)",
    "pre_de_emph_bypass(0=OFF/1=ON)",
    "sign(0=OFF/1=ON)",
    "tx_dis(0=OFF/1=ON)",
    "bclo(0=OFF/1=ON)",
    "mute(0=OFF/1=ON)",
    "rx_modulation(0=FM/1=AM)",
    "tx_modulation(0=FM/1=AM)" ]

/-- How `DictWriter.writerow` renders
`station.model_dump(mode='json', by_alias=True)`: strings as-is, ints in
decimal, `StrEnum` members by their label and `IntEnum` members by their
numeric value. -/
def renderRow (c : RadioChannelConfig) : List String :=
  [ c.title, toString c.tx_freq, toString c.rx_freq,
    toString c.tx_sub_audio, toString c.rx_sub_audio,
    (match c.tx_power with | .H => "H" | .M => "M" | .L => "L"),
    toString c.bandwidth.value,
    toString c.scan.value,
    toString c.talk_around.value,
    toString c.pre_de_emph_bypass.value,
    toString c.sign.value,
    toString c.tx_dis.value,
    toString c.bclo.value,
    toString c.mute.value,
    toString c.rx_modulation.value,
    toString c.tx_modulation.value ]

/-- The row dict a `DictReader` row yields after `sanitize_input`, looked up
at one header label: `none` when the label is not a field name of the row
dict at all; `some none` when it is but holds `None` (a missing trailing
cell filled with `restval=None`, or an empty cell sanitized to `None`);
`some (some s)` for a non-empty cell.  (Python keeps the last of duplicated
header labels; the model keeps the first — no claim involves duplicated
headers.) -/
def getEntry (hdr cells : List String) (key : String) :
    Option (Option String) :=
  match hdr.indexOf? key with
  | none => none
  | some i =>
    some (match cells.get? i with
      | some s => if s = "" then none else some s
      | none => none)

/-- Pydantic field lookup with `populate_by_name=True`: the alias is
consulted first, the plain field name second. -/
def fieldVal (hdr cells : List String) (aliasKey fieldKey : String) :
    Option (Option String) :=
  match getEntry hdr cells aliasKey with
  | some v => some v
  | none => getEntry hdr cells fieldKey

/-- One decimal digit of a numeric cell. -/
def digitVal? (c : Char) : Option Nat :=
  if c.isDigit then some (c.toNat - 48) else none

def digitsToNatAux : List Char → Nat → Option Nat
  | [], acc => some acc
  | c :: cs, acc =>
    match digitVal? c with
    | some d => digitsToNatAux cs (acc * 10 + d)
    | none => none

/-- Python `int(cell)` as pydantic's lax coercion applies it to a CSV cell:
an optional minus sign and a non-empty run of decimal digits.  (It agrees
with Python on every cell `DictWriter` can have written; Python would also
tolerate surrounding whitespace, a plus sign or underscores, which no
encoded file contains.) -/
def strToInt? (s : String) : Option Int :=
  match s.data with
  | [] => none
  | '-' :: [] => none
  | '-' :: c :: cs => (digitsToNatAux (c :: cs) 0).map (fun n => -(n : Int))
  | l => (digitsToNatAux l 0).map (fun n => (n : Int))

/-- A required `str` field: present and non-`None`, else `ValidationError`. -/
def cellStr (v : Option (Option String)) : Except Err String :=
  match v with
  | some (some s) => .ok s
  | _ => .error .validationError

/-- A required `int` field: present, non-`None` and int-coercible. -/
def cellInt (v : Option (Option String)) : Except Err Int :=
  match v with
  | some (some s) =>
    match strToInt? s with
    | some n => .ok n
    | none => .error .validationError
  | _ => .error .validationError

/-- A defaulted field: an absent label falls back to the default; a `None`
value or an uncoercible cell is a `ValidationError`. -/
def cellOpt {α : Type} (parse : String → Option α) (dflt : α)
    (v : Option (Option String)) : Except Err α :=
  match v with
  | none => .ok dflt
  | some none => .error .validationError
  | some (some s) =>
    match parse s with
    | some a => .ok a
    | none => .error .validationError

/-- An `int`-typed defaulted field. -/
def cellOptInt (dflt : Int) (v : Option (Option String)) : Except Err Int :=
  cellOpt strToInt? dflt v

def parsePower (s : String) : Option TransmitPower :=
  if s = "H" then some .H
  else if s = "M" then some .M
  else if s = "L" then some .L
  else none

def parseBandwidth (s : String) : Option FmBandwidth :=
  match strToInt? s with
  | some 25000 => some .WIDE
  | some 12500 => some .NARROW
  | _ => none

def parseToggle (s : String) : Option Toggle :=
  match strToInt? s with
  | some 1 => some .ENABLED
  | some 0 => some .DISABLED
  | _ => none

def parseModulation (s : String) : Option Modulation :=
  match strToInt? s with
  | some 0 => some .FM
  | some 1 => some .AM
  | _ => none

/-- `RadioChannelConfig.model_validate(sanitize_input(row))` on one
`DictReader` row: per-field coercion against the header labels, then the
validating construction (`mkChannelConfig`). -/
def parseRow (hdr cells : List String) : Except Err RadioChannelConfig := do
  let title ← cellStr (fieldVal hdr cells "title" "title")
  let tx_freq ← cellInt (fieldVal hdr cells "tx_freq" "tx_freq")
  let rx_freq ← cellInt (fieldVal hdr cells "rx_freq" "rx_freq")
  let tx_sub_audio ← cellOptInt 0
    (fieldVal hdr cells "tx_sub_audio(CTCSS=freq/DCS=number)" "tx_sub_audio")
  let rx_sub_audio ← cellOptInt 0
    (fieldVal hdr cells "rx_sub_audio(CTCSS=freq/DCS=number)" "rx_sub_audio")
  let tx_power ← cellOpt parsePower .H
    (fieldVal hdr cells "tx_power(H/M/L)" "tx_power")
  let bandwidth ← cellOpt parseBandwidth .WIDE
    (fieldVal hdr cells "bandwidth(12500/25000)" "bandwidth")
  let scan ← cellOpt parseToggle .DISABLED
    (fieldVal hdr cells "scan(0=OFF/1=ON)" "scan")
  let talk_around ← cellOpt parseToggle .DISABLED
    (fieldVal hdr cells "talk around(0=OFF/1=ON)" "talk_around")
  let pre_de_emph_bypass ← cellOpt parseToggle .DISABLED
    (fieldVal hdr cells "pre_de_emph_bypass(0=OFF/1=ON)" "pre_de_emph_bypass")
  let sign ← cellOpt parseToggle .DISABLED
    (fieldVal hdr cells "sign(0=OFF/1=ON)" "sign")
  let tx_dis ← cellOpt parseToggle .DISABLED
    (fieldVal hdr cells "tx_dis(0=OFF/1=ON)" "tx_dis")
  let bclo ← cellOpt parseToggle .DISABLED
    (fieldVal hdr cells "bclo(0=OFF/1=ON)" "bclo")
  let mute ← cellOpt parseToggle .DISABLED
    (fieldVal hdr cells "mute(0=OFF/1=ON)" "mute")
  let rx_modulation ← cellOpt parseModulation .FM
    (fieldVal hdr cells "rx_modulation(0=FM/1=AM)" "rx_modulation")
  let tx_modulation ← cellOpt parseModulation .FM
    (fieldVal hdr cells "tx_modulation(0=FM/1=AM)" "tx_modulation")
  mkChannelConfig title tx_freq rx_freq tx_sub_audio rx_sub_audio tx_power
    bandwidth scan talk_around pre_de_emph_bypass sign tx_dis bclo mute
    rx_modulation tx_modulation

/-- The `for index, row in enumerate(reader)` loop of `load_csv_config`:
`DictReader` skips blank rows, every yielded row is validated and assigned
to `self.stations[index]`, a validation failure propagates out with the
stations mutated so far, and `__check_stations__` runs after the loop. -/
def loadRows (p : BtechUvProProgrammer) (index : Nat)
    (rows : List (List String)) (hdr : List String) :
    BtechUvProProgrammer × Option Err :=
  match rows with
  | [] => (p, check_stations p)
  | row :: rest =>
    if row = [] then
      loadRows p index rest hdr
    else
      match parseRow hdr row with
      | .error e => (p, some e)
      | .ok item =>
        loadRows
          { p with stations := dictSet p.stations (index : Int) (some item) }
          (index + 1) rest hdr

/-- `load_csv_config`, at the parsed-row level: `clear_config` first, then
`DictReader` takes the first line as the header and the loop consumes the
rest.  The returned programmer is the state `self` holds when the call
returns or raises. -/
def load_csv_config (p : BtechUvProProgrammer)
    (rows : List (List String)) : BtechUvProProgrammer × Option Err :=
  let p := clear_config p
  match rows with
  | [] => (p, check_stations p)
  | hdr :: rest => loadRows p 0 rest hdr

/-- `dump_csv_config`, at the parsed-row level: `RadioConfigurationError`
when the dict is empty, else the header row followed by one row per dict
value in order — a full rendered row for a config, the blank row `[]` for
`None`. -/
def dump_csv_config (p : BtechUvProProgrammer) :
    Except Err (List (List String)) :=
  if p.stations.length = 0 then .error .configurationError
  else
    .ok (csvHeaders ::
      p.stations.map (fun kv =>
        match kv.2 with
        | some c => renderRow c
        | none => []))

/-! ## Concrete values used by the claim theorems -/

deriving instance DecidableEq for Except

/-- The APRS channel as the spec intends it (144.39 MHz = 144,390,000 Hz,
mute enabled): a valid config used as test data. -/
def cfgA : RadioChannelConfig :=
  { title := "APRS", tx_freq := 144390000, rx_freq := 144390000,
    mute := Toggle.ENABLED }

/-- A capacity-2 registry whose slot 0 is empty while slot 1 is populated:
an empty slot preceding a populated one. -/
def regA : BtechUvProProgrammer :=
  { max_stations := 2, stations := [(0, none), (1, some cfgA)] }

/-- The registry `set_station(0, cfgA)` produces from a fresh capacity-2
registry. -/
def regA0 : BtechUvProProgrammer :=
  { max_stations := 2, stations := [(0, some cfgA), (1, none)] }

/-- A capacity-30 registry in which only index 0 holds a config. -/
def onlySlot0 (c : RadioChannelConfig) : BtechUvProProgrammer :=
  { max_stations := 30,
    stations :=
      ((0 : Int), some c) ::
        (List.range 29).map (fun (i : Nat) => ((i : Int) + 1, none)) }

/-- The station dict reached by clearing a capacity-`cap` registry and then
assigning configs `cfgs` to keys `0, 1, 2, ...` in order: keys stay
`0 .. cap-1` while at most `cap` configs are placed, and grow past the
capacity one fresh appended key at a time beyond that. -/
def regOf (cap : Int) (cfgs : List RadioChannelConfig) : Stations :=
  (List.range (max cap.toNat cfgs.length)).map
    (fun (i : Nat) => ((i : Int), cfgs[i]?))

/-! ## Registry well-formedness (the spec's registry invariant) -/

instance (o : Option RadioChannelConfig) :
    Decidable (∀ c, o = some c → validCfg c) :=
  match o with
  | none => isTrue (by simp)
  | some c => decidable_of_iff (validCfg c) (by simp)

/-- The spec's registry invariant: exactly `capacity` entries, keyed
`0 .. capacity-1` in order, and every populated slot holds a valid config. -/
def wf (p : BtechUvProProgrammer) : Prop :=
  p.stations.map Prod.fst =
      (List.range p.max_stations.toNat).map (fun (i : Nat) => (i : Int)) ∧
    ∀ kv ∈ p.stations, ∀ c, kv.2 = some c → validCfg c

instance (p : BtechUvProProgrammer) : Decidable (wf p) := by
  unfold wf; infer_instance

/-! ## Arithmetic of `mhz_to_hz` -/

/-- C9 (counterexample): at the claim's own flagship input, 144.39 MHz,
the helper does NOT return `int(144.39 * 10^7) = 1,443,900,000` — ten
times the intended hertz value.  The double nearest 144.39 lies just below
it, so the float product truncates to 1,443,899,999, exactly what CPython
computes for `int(144.39 * 10e6)`. -/
theorem mhz_to_hz_not_tenfold_at_aprs :
    mhz_to_hz (floatOfDecimal 14439 2) = 1443899999 ∧
      (1443899999 : Int) ≠ 10 * 144390000 := by
  exact ⟨by decide, by decide⟩

/-- C9 (amended): `mhz_to_hz` computes `int(mhz * 10e6)` in double
precision, with `10e6 = 10^7`, so it returns roughly ten times the
intended hertz value — exactly tenfold when the float arithmetic is exact,
as at the 146.52 and 446.0 presets, but one unit below tenfold at the
144.39 preset, where float rounding makes it 1,443,899,999. -/
theorem mhz_to_hz_scaled_values :
    mhz_to_hz (floatOfDecimal 14439 2) = 10 * 144390000 - 1 ∧
      mhz_to_hz (floatOfDecimal 14652 2) = 10 * 146520000 ∧
      mhz_to_hz (floatOfDecimal 4460 1) = 10 * 446000000 := by
  exact ⟨by decide, by decide, by decide⟩

/-- C3: the preset constructors do not work at all.  `mhz_to_hz(144.39)`
is 1,443,899,999 Hz (ten times the intended value, less one unit of float
rounding), which `freqRejected` refuses (it exceeds both bands), so
`load_natnl_aprs` raises a validation error while constructing its config
instead of placing an APRS channel at index 0; `search_by_title` can never
see it.  (Index 0 would also have been routed through `append_station`,
`0` being falsy in `if not channel_index`.) -/
theorem load_natnl_aprs_raises :
    mhz_to_hz (floatOfDecimal 14439 2) = 1443899999 ∧
      freqRejected 1443899999 = true ∧
      load_natnl_aprs (newProgrammer 30) (some 0) = .error .validationError ∧
      load_natnl_aprs (newProgrammer 30) none = .error .validationError := by
  exact ⟨by decide, by decide, by decide, by decide⟩

lemma mk_isOk (t : String) (tx rx a b : Int) (c : TransmitPower)
    (d : FmBandwidth) (e f g h i j k : Toggle) (l m : Modulation) :
    (mkChannelConfig t tx rx a b c d e f g h i j k l m).isOk =
      (!titleRejected t && !freqRejected tx && !freqRejected rx) := by
  unfold mkChannelConfig
  split_ifs with h1 h2 h3 <;> simp_all [Except.isOk, Except.toBool]

/-- C5: construction accepts a frequency exactly when it lies in
`[136e6, 174e6]` (both ends inclusive) or in `[400e6, 520e6)` (upper end
exclusive), and the seven boundary probes behave as the spec lists. -/
theorem freq_band_acceptance :
    (∀ f : Int,
      (mkChannelConfig "APRS" f f 0 0 .H .WIDE .DISABLED .DISABLED .DISABLED
            .DISABLED .DISABLED .DISABLED .DISABLED .FM .FM).isOk = true ↔
        (136000000 ≤ f ∧ f ≤ 174000000) ∨
          (400000000 ≤ f ∧ f < 520000000)) ∧
      freqRejected 136000000 = false ∧
      freqRejected 174000000 = false ∧
      freqRejected 400000000 = false ∧
      freqRejected 519999999 = false ∧
      freqRejected 135999999 = true ∧
      freqRejected 300000000 = true ∧
      freqRejected 520000000 = true := by
  refine ⟨fun f => ?_, by decide, by decide, by decide, by decide, by decide,
    by decide, by decide⟩
  rw [mk_isOk]
  have ht : titleRejected "APRS" = false := by decide
  rw [ht]
  simp only [Bool.not_false, Bool.true_and, Bool.and_eq_true,
    Bool.not_eq_true']
  simp only [freqRejected, Bool.and_eq_false_iff, Bool.or_eq_false_iff,
    decide_eq_false_iff_not, not_lt, not_le]
  omega

/-- C4 (counterexample): `set_station` with the negative index `-1` on a
fresh capacity-30 registry does not fail — the bound check only tests the
upper bound — contradicting the claim that every negative index fails. -/
theorem set_station_negative_succeeds :
    (set_station (newProgrammer 30) (-1) cfgA).isOk = true := by decide

/-- C4 (amended): `set_station` fails with the `IndexError` kind exactly
when `index > capacity - 1`, and otherwise succeeds by overwriting the
slot; so `set_station(capacity, cfg)` fails and `set_station(capacity-1,
cfg)` succeeds, but negative indices are accepted. -/
theorem set_station_bounds :
    (∀ (p : BtechUvProProgrammer) (i : Int) (c : RadioChannelConfig),
      (set_station p i c = .error .indexError ↔ i > p.max_stations - 1) ∧
        (set_station p i c =
            .ok { p with stations := dictSet p.stations i (some c) } ↔
          i ≤ p.max_stations - 1)) ∧
      (set_station (newProgrammer 30) 30 cfgA).isOk = false ∧
      (set_station (newProgrammer 30) 29 cfgA).isOk = true := by
  refine ⟨fun p i c => ?_, by decide, by decide⟩
  unfold set_station check_station_index
  split_ifs with h <;> constructor <;> simp_all

/-- C2 (counterexample): a successful public operation that breaks the
fixed-capacity invariant: `set_station(-1, cfg)` on a fresh capacity-30
registry succeeds and leaves the registry with 31 entries (a new key `-1`
appended behind the 30 existing ones). -/
theorem set_station_negative_grows :
    (set_station (newProgrammer 30) (-1) cfgA).map
        (fun q => q.stations.length) = .ok 31 := by decide

/-! ## Encode shape and the round trip -/

/-- C8: encoding a capacity-30 registry whose only populated slot is index
0 yields the header row, one fully populated data row (16 fields, like the
header), and then 29 blank rows of zero fields, in that order. -/
theorem dump_single_station_shape (c : RadioChannelConfig) :
    dump_csv_config (onlySlot0 c) =
        .ok (csvHeaders :: renderRow c :: List.replicate 29 []) ∧
      (renderRow c).length = 16 ∧
      csvHeaders.length = 16 ∧
      (List.replicate 29 ([] : List String)).length = 29 :=
  ⟨rfl, rfl, rfl, rfl⟩

/-- C1: the claimed `encode(decode(encode(r))) = encode(r)` round trip
fails as soon as an empty slot precedes a populated one.  On the capacity-2
registry `regA` (slot 0 empty, slot 1 populated), encode emits the blank
row before the data row; decode skips the blank row (`DictReader` yields
nothing for a blank line) and places the config at index 0; re-encoding
therefore emits the data row first, a different row list. -/
theorem encode_decode_encode_not_id :
    dump_csv_config regA = .ok [csvHeaders, [], renderRow cfgA] ∧
      load_csv_config regA [csvHeaders, [], renderRow cfgA] =
        ({ max_stations := 2, stations := [(0, some cfgA), (1, none)] },
          none) ∧
      dump_csv_config
          { max_stations := 2, stations := [(0, some cfgA), (1, none)] } =
        .ok [csvHeaders, renderRow cfgA, []] ∧
      ([csvHeaders, renderRow cfgA, []] : List (List String)) ≠
        [csvHeaders, [], renderRow cfgA] :=
  ⟨by decide, by decide, by decide, by decide⟩

/-! ## Association-list dict lemmas -/

lemma clear_config_stations (p : BtechUvProProgrammer) :
    (clear_config p).stations = regOf p.max_stations [] := by
  unfold clear_config regOf
  simp only [List.length_nil, Nat.max_zero]
  exact List.map_congr_left (fun i _ => by simp)

lemma dictSet_regOf (cap : Int) (cfgs : List RadioChannelConfig)
    (c : RadioChannelConfig) :
    dictSet (regOf cap cfgs) (cfgs.length : Int) (some c) =
      regOf cap (cfgs ++ [c]) := by
  by_cases hlt : cfgs.length < cap.toNat
  · have hmem : (regOf cap cfgs).any
        (fun kv => kv.1 = (cfgs.length : Int)) = true := by
      rw [List.any_eq_true]
      refine ⟨((cfgs.length : Int), cfgs[cfgs.length]?), ?_, by simp⟩
      exact List.mem_map.mpr
        ⟨cfgs.length, List.mem_range.mpr (by omega), rfl⟩
    unfold dictSet
    rw [if_pos hmem]
    unfold regOf
    rw [List.map_map]
    have hmax1 : max cap.toNat cfgs.length = cap.toNat := by omega
    have hmax2 : max cap.toNat (cfgs ++ [c]).length = cap.toNat := by
      simp; omega
    rw [hmax1, hmax2]
    apply List.map_congr_left
    intro i hi
    rw [List.mem_range] at hi
    by_cases hik : i = cfgs.length
    · subst hik
      simp [List.getElem?_concat_length]
    · have hne : ((i : Int) = (cfgs.length : Int)) = False := by
        simp only [Nat.cast_inj, eq_iff_iff, iff_false]
        exact hik
      simp only [Function.comp_apply, hne, if_false]
      by_cases hlt2 : i < cfgs.length
      · rw [List.getElem?_append_left hlt2]
      · rw [List.getElem?_eq_none (by omega),
          List.getElem?_eq_none (by simp; omega)]
  · have hnmem : (regOf cap cfgs).any
        (fun kv => kv.1 = (cfgs.length : Int)) = false := by
      rw [← Bool.not_eq_true, List.any_eq_true]
      rintro ⟨kv, hkv, he⟩
      obtain ⟨i, hi, rfl⟩ := List.mem_map.mp hkv
      rw [List.mem_range] at hi
      simp only [decide_eq_true_eq, Nat.cast_inj] at he
      omega
    unfold dictSet
    rw [if_neg (by simp [hnmem])]
    unfold regOf
    have hmax1 : max cap.toNat cfgs.length = cfgs.length := by omega
    have hmax2 : max cap.toNat (cfgs ++ [c]).length = cfgs.length + 1 := by
      simp; omega
    rw [hmax1, hmax2, List.range_succ, List.map_append]
    congr 1
    · apply List.map_congr_left
      intro i hi
      rw [List.mem_range] at hi
      rw [List.getElem?_append_left hi]
    · simp [List.getElem?_concat_length]

/-! ## Row validation produces only valid configs -/

lemma bind_ok {α β : Type} {x : Except Err α} {f : α → Except Err β} {b : β}
    (h : x >>= f = .ok b) : ∃ a, x = .ok a ∧ f a = .ok b := by
  cases x with
  | error e => simp [Bind.bind, Except.bind] at h
  | ok a => exact ⟨a, rfl, by simpa [Bind.bind, Except.bind] using h⟩

lemma mk_ok_valid {t : String} {tx rx a b : Int} {c : TransmitPower}
    {d : FmBandwidth} {e f g h i j k : Toggle} {l m : Modulation}
    {cfg : RadioChannelConfig}
    (hok : mkChannelConfig t tx rx a b c d e f g h i j k l m = .ok cfg) :
    validCfg cfg := by
  unfold mkChannelConfig at hok
  split_ifs at hok with h1 h2 h3
  injection hok with h4
  subst h4
  unfold validCfg
  simp only [Bool.not_eq_true] at h1 h2 h3
  exact ⟨h1, h2, h3⟩

lemma parseRow_valid {hdr cells : List String} {c : RadioChannelConfig}
    (h : parseRow hdr cells = .ok c) : validCfg c := by
  unfold parseRow at h
  obtain ⟨x1, _, h⟩ := bind_ok h
  obtain ⟨x2, _, h⟩ := bind_ok h
  obtain ⟨x3, _, h⟩ := bind_ok h
  obtain ⟨x4, _, h⟩ := bind_ok h
  obtain ⟨x5, _, h⟩ := bind_ok h
  obtain ⟨x6, _, h⟩ := bind_ok h
  obtain ⟨x7, _, h⟩ := bind_ok h
  obtain ⟨x8, _, h⟩ := bind_ok h
  obtain ⟨x9, _, h⟩ := bind_ok h
  obtain ⟨x10, _, h⟩ := bind_ok h
  obtain ⟨x11, _, h⟩ := bind_ok h
  obtain ⟨x12, _, h⟩ := bind_ok h
  obtain ⟨x13, _, h⟩ := bind_ok h
  obtain ⟨x14, _, h⟩ := bind_ok h
  obtain ⟨x15, _, h⟩ := bind_ok h
  obtain ⟨x16, _, h⟩ := bind_ok h
  exact mk_ok_valid h

/-! ## The decode loop -/

lemma loadRows_ok_prefix (hdr : List String) (good : List (List String)) :
    ∀ (cfgs1 : List RadioChannelConfig) (rest : List (List String))
      (p : BtechUvProProgrammer) (cfgs0 : List RadioChannelConfig),
      good.map (parseRow hdr) = cfgs1.map Except.ok →
      (∀ r ∈ good, r ≠ []) →
      p.stations = regOf p.max_stations cfgs0 →
      loadRows p cfgs0.length (good ++ rest) hdr =
        loadRows
          { p with stations := regOf p.max_stations (cfgs0 ++ cfgs1) }
          (cfgs0 ++ cfgs1).length rest hdr := by
  induction good with
  | nil =>
    intro cfgs1 rest p cfgs0 hok hnb hst
    have h0 : cfgs1 = [] := by cases cfgs1 <;> simp_all
    subst h0
    simp only [List.append_nil, List.nil_append]
    rw [← hst]
  | cons r good ih =>
    intro cfgs1 rest p cfgs0 hok hnb hst
    cases cfgs1 with
    | nil => simp at hok
    | cons c cfgs1 =>
      simp only [List.map_cons, List.cons.injEq] at hok
      obtain ⟨hr, hgood⟩ := hok
      have hrne : r ≠ [] := hnb r (by simp)
      simp only [List.cons_append, loadRows]
      rw [if_neg hrne, hr]
      have hst2 :
          ({ p with
              stations :=
                dictSet p.stations (cfgs0.length : Int) (some c) } :
            BtechUvProProgrammer).stations =
          regOf p.max_stations (cfgs0 ++ [c]) := by
        simp only [hst]
        exact dictSet_regOf p.max_stations cfgs0 c
      have happ : (cfgs0 ++ [c]).length = cfgs0.length + 1 := by simp
      have hih := ih cfgs1 rest
        { p with stations := dictSet p.stations (cfgs0.length : Int) (some c) }
        (cfgs0 ++ [c]) hgood (fun s hs => hnb s (by simp [hs])) hst2
      rw [happ] at hih
      show loadRows
          { p with stations := dictSet p.stations (cfgs0.length : Int) (some c) }
          (cfgs0.length + 1) (good ++ rest) hdr = _
      rw [hih]
      simp only [List.append_assoc, List.singleton_append]

lemma loadRows_none_shape (hdr : List String) (rows : List (List String)) :
    ∀ (p : BtechUvProProgrammer) (cfgs0 : List RadioChannelConfig)
      (q : BtechUvProProgrammer),
      p.stations = regOf p.max_stations cfgs0 →
      loadRows p cfgs0.length rows hdr = (q, none) →
      ∃ cfgs1 : List RadioChannelConfig,
        q.max_stations = p.max_stations ∧
          q.stations = regOf p.max_stations (cfgs0 ++ cfgs1) ∧
          (∀ c ∈ cfgs1, validCfg c) ∧
          ((regOf p.max_stations (cfgs0 ++ cfgs1)).length : Int) ≤
            p.max_stations := by
  induction rows with
  | nil =>
    intro p cfgs0 q hst h
    simp only [loadRows] at h
    injection h with h1 h2
    subst h1
    refine ⟨[], rfl, by simpa using hst, by simp, ?_⟩
    simp only [List.append_nil, ← hst]
    unfold check_stations at h2
    split_ifs at h2 with hgt
    omega
  | cons r rest ih =>
    intro p cfgs0 q hst h
    simp only [loadRows] at h
    by_cases hr : r = []
    · rw [if_pos hr] at h
      exact ih p cfgs0 q hst h
    · rw [if_neg hr] at h
      cases hp : parseRow hdr r with
      | error e =>
        rw [hp] at h
        simp at h
      | ok c =>
        rw [hp] at h
        have h' : loadRows
            { p with
              stations := dictSet p.stations (cfgs0.length : Int) (some c) }
            (cfgs0.length + 1) rest hdr = (q, none) := h
        have hst2 :
            ({ p with
                stations :=
                  dictSet p.stations (cfgs0.length : Int) (some c) } :
              BtechUvProProgrammer).stations =
            regOf p.max_stations (cfgs0 ++ [c]) := by
          simp only [hst]
          exact dictSet_regOf p.max_stations cfgs0 c
        have happ : (cfgs0 ++ [c]).length = cfgs0.length + 1 := by simp
        rw [← happ] at h'
        obtain ⟨cfgs1, hq1, hq2, hv1, hlen⟩ := ih _ (cfgs0 ++ [c]) q hst2 h'
        refine ⟨c :: cfgs1, by simpa using hq1, by simpa using hq2, ?_, ?_⟩
        · intro c' hc'
          rcases List.mem_cons.mp hc' with rfl | hmem
          · exact parseRow_valid hp
          · exact hv1 c' hmem
        · have hassoc : (cfgs0 ++ [c]) ++ cfgs1 = cfgs0 ++ c :: cfgs1 := by
            simp
          rw [← hassoc]
          exact hlen

lemma clear_config_max (p : BtechUvProProgrammer) :
    (clear_config p).max_stations = p.max_stations := rfl

/-- C6: decode clears the registry and then populates it row by row, so
when validation fails at some row the call aborts with the error and the
registry holds exactly the configs of the rows before the failing one, at
their ordinal indices (everything after them cleared) — independent of the
registry's pre-decode contents. -/
theorem load_csv_partial_failure (p : BtechUvProProgrammer)
    (hdr : List String) (good : List (List String)) (bad : List String)
    (rest : List (List String)) (cfgs : List RadioChannelConfig) (e : Err)
    (hok : good.map (parseRow hdr) = cfgs.map Except.ok)
    (hnb : ∀ r ∈ good, r ≠ [])
    (hbadnb : bad ≠ [])
    (hbad : parseRow hdr bad = .error e) :
    load_csv_config p (hdr :: (good ++ bad :: rest)) =
      ({ max_stations := p.max_stations,
         stations := regOf p.max_stations cfgs }, some e) := by
  unfold load_csv_config
  have hT := loadRows_ok_prefix hdr good cfgs (bad :: rest) (clear_config p)
    [] hok hnb (clear_config_stations p)
  simp only [List.nil_append, List.length_nil] at hT
  show loadRows (clear_config p) 0 (good ++ bad :: rest) hdr = _
  rw [hT]
  simp only [loadRows]
  rw [if_neg hbadnb, hbad]
  rfl

/-- C7: decoding an input whose data rows all validate but number more than
the capacity fails with a `ConfigurationError` from the post-load capacity
check. -/
theorem load_csv_overflow (p : BtechUvProProgrammer) (hdr : List String)
    (rows : List (List String)) (cfgs : List RadioChannelConfig)
    (hok : rows.map (parseRow hdr) = cfgs.map Except.ok)
    (hnb : ∀ r ∈ rows, r ≠ [])
    (hover : (rows.length : Int) > p.max_stations) :
    (load_csv_config p (hdr :: rows)).2 = some .configurationError := by
  unfold load_csv_config
  have hT := loadRows_ok_prefix hdr rows cfgs [] (clear_config p)
    [] hok hnb (clear_config_stations p)
  simp only [List.nil_append, List.length_nil, List.append_nil] at hT
  show (loadRows (clear_config p) 0 rows hdr).2 = _
  rw [hT]
  simp only [loadRows]
  unfold check_stations
  have hcnt : rows.length = cfgs.length := by
    have hlen := congrArg List.length hok
    simpa using hlen
  have hreg : (regOf p.max_stations cfgs).length =
      max p.max_stations.toNat cfgs.length := by
    simp [regOf]
  split_ifs with hc
  · rfl
  · exfalso
    simp only [clear_config_max, hreg] at hc
    have hmr := Nat.le_max_right p.max_stations.toNat cfgs.length
    omega

/-- Witness for C6 at a concrete input: capacity 2, one valid row, then a
row whose frequency cells are missing.  The failing decode leaves exactly
the first config at index 0 and the other slot cleared. -/
theorem load_csv_partial_failure_witness :
    ([renderRow cfgA].map (parseRow csvHeaders) = [cfgA].map Except.ok) ∧
      (∀ r ∈ [renderRow cfgA], r ≠ []) ∧
      (["APRS"] : List String) ≠ [] ∧
      parseRow csvHeaders ["APRS"] = .error .validationError ∧
      load_csv_config (newProgrammer 2)
          (csvHeaders :: ([renderRow cfgA] ++ ["APRS"] :: [])) =
        ({ max_stations := (newProgrammer 2).max_stations,
           stations := regOf (newProgrammer 2).max_stations [cfgA] },
          some .validationError) :=
  ⟨by decide, by decide, by decide, by decide,
    load_csv_partial_failure (newProgrammer 2) csvHeaders [renderRow cfgA]
      ["APRS"] [] [cfgA] .validationError (by decide) (by decide)
      (by decide) (by decide)⟩

/-- Witness for C7 at a concrete input: capacity 1, two valid data rows. -/
theorem load_csv_overflow_witness :
    ([renderRow cfgA, renderRow cfgA].map (parseRow csvHeaders) =
        [cfgA, cfgA].map Except.ok) ∧
      (∀ r ∈ [renderRow cfgA, renderRow cfgA], r ≠ []) ∧
      (([renderRow cfgA, renderRow cfgA].length : Int) >
        (newProgrammer 1).max_stations) ∧
      (load_csv_config (newProgrammer 1)
          (csvHeaders :: [renderRow cfgA, renderRow cfgA])).2 =
        some .configurationError :=
  ⟨by decide, by decide, by decide,
    load_csv_overflow (newProgrammer 1) csvHeaders
      [renderRow cfgA, renderRow cfgA] [cfgA, cfgA] (by decide) (by decide)
      (by decide)⟩

/-! ## Frame property of `set_station` -/

lemma find?_map_update (d : Stations) (k : Int)
    (v : Option RadioChannelConfig) (j : Int) (h : j ≠ k) :
    (d.map (fun kv => if kv.1 = k then (k, v) else kv)).find?
        (fun kv => kv.1 = j) =
      d.find? (fun kv => kv.1 = j) := by
  induction d with
  | nil => rfl
  | cons a d ih =>
    simp only [List.map_cons, List.find?_cons]
    by_cases hak : a.1 = k
    · have hif : (if a.1 = k then (k, v) else a) = (k, v) := if_pos hak
      rw [hif]
      have h1 : (decide ((k, v).1 = j)) = false :=
        decide_eq_false (by simpa using Ne.symm h)
      have h2 : (decide (a.1 = j)) = false :=
        decide_eq_false (by rw [hak]; exact Ne.symm h)
      rw [h1, h2]
      exact ih
    · have hif : (if a.1 = k then (k, v) else a) = a := if_neg hak
      rw [hif]
      cases haj : (decide (a.1 = j)) with
      | true => rfl
      | false => exact ih

lemma dictGet?_dictSet_ne (d : Stations) (k : Int)
    (v : Option RadioChannelConfig) (j : Int) (h : j ≠ k) :
    dictGet? (dictSet d k v) j = dictGet? d j := by
  unfold dictSet dictGet?
  split_ifs with hany
  · rw [find?_map_update d k v j h]
  · rw [List.find?_append]
    have hone : List.find? (fun kv => decide (kv.1 = j)) [(k, v)] = none := by
      simp [Ne.symm h]
    rw [hone, Option.or_none]

/-- C10: a successful `set_station(i, c)` with `i` in range changes only
slot `i`: every other key reads the same value afterwards, and the
capacity is unchanged. -/
theorem set_station_frame (p : BtechUvProProgrammer) (i : Int)
    (c : RadioChannelConfig) (p' : BtechUvProProgrammer)
    (_hlo : 0 ≤ i) (h : set_station p i c = .ok p') :
    p'.max_stations = p.max_stations ∧
      ∀ j : Int, j ≠ i → dictGet? p'.stations j = dictGet? p.stations j := by
  unfold set_station check_station_index at h
  split_ifs at h with hgt
  have h' :
      Except.ok
          ({ p with stations := dictSet p.stations i (some c) } :
            BtechUvProProgrammer) = .ok p' := h
  injection h' with h2
  subst h2
  exact ⟨rfl, fun j hj => dictGet?_dictSet_ne p.stations i (some c) j hj⟩

/-- Witness for C10 at a concrete input: setting slot 0 of a fresh
capacity-2 registry leaves slot 1 (and every other key) unchanged. -/
theorem set_station_frame_witness :
    (0 : Int) ≤ 0 ∧
      set_station (newProgrammer 2) 0 cfgA = .ok regA0 ∧
      (regA0.max_stations = (newProgrammer 2).max_stations ∧
        ∀ j : Int, j ≠ 0 →
          dictGet? regA0.stations j = dictGet? (newProgrammer 2).stations j) :=
  ⟨le_refl 0, by decide,
    set_station_frame (newProgrammer 2) 0 cfgA regA0 (le_refl 0) (by decide)⟩

/-! ## The registry invariant across the public operations -/

lemma dictSet_keys (d : Stations) (k : Int) (v : Option RadioChannelConfig)
    (h : d.any (fun kv => kv.1 = k) = true) :
    (dictSet d k v).map Prod.fst = d.map Prod.fst := by
  unfold dictSet
  rw [if_pos h, List.map_map]
  apply List.map_congr_left
  intro kv _
  by_cases hk : kv.1 = k
  · simp [hk]
  · simp [hk]

lemma dictSet_mem (d : Stations) (k : Int) (v : Option RadioChannelConfig) :
    ∀ kv ∈ dictSet d k v, kv ∈ d ∨ kv = (k, v) := by
  unfold dictSet
  split_ifs with hany
  · intro kv hkv
    obtain ⟨a, ha, rfl⟩ := List.mem_map.mp hkv
    by_cases hk : a.1 = k
    · right; simp [hk]
    · left; simpa [hk] using ha
  · intro kv hkv
    rcases List.mem_append.mp hkv with h1 | h1
    · left; exact h1
    · right; simpa using h1

lemma set_station_wf {p : BtechUvProProgrammer} {i : Int}
    {c : RadioChannelConfig} {p' : BtechUvProProgrammer}
    (hwf : wf p) (hi : 0 ≤ i) (hv : validCfg c)
    (h : set_station p i c = .ok p') : wf p' := by
  unfold set_station check_station_index at h
  split_ifs at h with hgt
  have h' :
      Except.ok
          ({ p with stations := dictSet p.stations i (some c) } :
            BtechUvProProgrammer) = .ok p' := h
  injection h' with h2
  subst h2
  have hmem : p.stations.any (fun kv => kv.1 = i) = true := by
    rw [List.any_eq_true]
    have hkeys : (i : Int) ∈ p.stations.map Prod.fst := by
      rw [hwf.1]
      exact List.mem_map.mpr ⟨i.toNat, List.mem_range.mpr (by omega), by omega⟩
    obtain ⟨kv, hkv, hfst⟩ := List.mem_map.mp hkeys
    exact ⟨kv, hkv, by simp [hfst]⟩
  constructor
  · show (dictSet p.stations i (some c)).map Prod.fst = _
    rw [dictSet_keys _ _ _ hmem]
    exact hwf.1
  · intro kv hkv c' hc'
    rcases dictSet_mem _ _ _ kv hkv with hmem2 | rfl
    · exact hwf.2 kv hmem2 c' hc'
    · cases hc'
      exact hv

lemma append_station_wf {p : BtechUvProProgrammer} {c : RadioChannelConfig}
    {p' : BtechUvProProgrammer} (hwf : wf p) (hv : validCfg c)
    (h : append_station p c = .ok p') : wf p' := by
  unfold append_station at h
  cases hf : p.stations.find? (fun kv => kv.2 = none) with
  | none => rw [hf] at h; cases h
  | some kv =>
    rw [hf] at h
    have h' : set_station p kv.1 c = .ok p' := h
    have hkvmem : kv ∈ p.stations := List.mem_of_find?_eq_some hf
    have hkeys : kv.1 ∈ p.stations.map Prod.fst :=
      List.mem_map.mpr ⟨kv, hkvmem, rfl⟩
    rw [hwf.1] at hkeys
    obtain ⟨n, _, hn⟩ := List.mem_map.mp hkeys
    have h0 : 0 ≤ kv.1 := by omega
    exact set_station_wf hwf h0 hv h'

lemma delete_station_wf {p : BtechUvProProgrammer} {i : Int}
    {p' : BtechUvProProgrammer} (hwf : wf p) (_hi : 0 ≤ i)
    (h : delete_station p i = .ok p') : wf p' := by
  unfold delete_station check_station_index at h
  split_ifs at h with hgt
  cases hg : dictGet? p.stations i with
  | none => rw [hg] at h; cases h
  | some v =>
    rw [hg] at h
    cases v with
    | none =>
      have h' : Except.ok p = .ok p' := h
      injection h' with h2
      subst h2
      exact hwf
    | some c0 =>
      have h' :
          Except.ok
              ({ p with stations := dictSet p.stations i none } :
                BtechUvProProgrammer) = .ok p' := h
      injection h' with h2
      subst h2
      have hany : p.stations.any (fun kv => kv.1 = i) = true := by
        rw [List.any_eq_true]
        obtain ⟨kv, hfind, _⟩ := Option.map_eq_some'.mp hg
        have hp := List.find?_some hfind
        exact ⟨kv, List.mem_of_find?_eq_some hfind, hp⟩
      constructor
      · show (dictSet p.stations i none).map Prod.fst = _
        rw [dictSet_keys _ _ _ hany]
        exact hwf.1
      · intro kv hkv c' hc'
        rcases dictSet_mem _ _ _ kv hkv with hmem2 | rfl
        · exact hwf.2 kv hmem2 c' hc'
        · cases hc'

lemma clear_config_wf (p : BtechUvProProgrammer) : wf (clear_config p) := by
  constructor
  · rw [show (clear_config p).stations =
        regOf (clear_config p).max_stations [] from clear_config_stations p]
    unfold regOf
    rw [List.map_map]
    simp
  · intro kv hkv c' hc'
    obtain ⟨n, _, rfl⟩ := List.mem_map.mp hkv
    cases hc'

lemma load_csv_wf {p : BtechUvProProgrammer} {rows : List (List String)}
    {p' : BtechUvProProgrammer}
    (h : load_csv_config p rows = (p', none)) : wf p' := by
  unfold load_csv_config at h
  cases rows with
  | nil =>
    have h' :
        ((clear_config p, check_stations (clear_config p)) :
          BtechUvProProgrammer × Option Err) = (p', none) := h
    injection h' with h1 h2
    subst h1
    exact clear_config_wf p
  | cons hdr rest =>
    have h' : loadRows (clear_config p) 0 rest hdr = (p', none) := h
    obtain ⟨cfgs1, hq1, hq2, hv1, hlen⟩ :=
      loadRows_none_shape hdr rest (clear_config p) [] p'
        (clear_config_stations p) h'
    simp only [List.nil_append, clear_config_max] at hq1 hq2 hlen
    have hreg : (regOf p.max_stations cfgs1).length =
        max p.max_stations.toNat cfgs1.length := by
      simp [regOf]
    rw [hreg] at hlen
    have hml := Nat.le_max_left p.max_stations.toNat cfgs1.length
    have hmr := Nat.le_max_right p.max_stations.toNat cfgs1.length
    have hmax : max p.max_stations.toNat cfgs1.length =
        p.max_stations.toNat := by omega
    constructor
    · rw [hq2, hq1]
      unfold regOf
      rw [hmax, List.map_map]
      rfl
    · intro kv hkv c' hc'
      rw [hq2] at hkv
      obtain ⟨n, _, rfl⟩ := List.mem_map.mp hkv
      have hcmem : c' ∈ cfgs1 :=
        List.get?_mem (by simpa [List.get?_eq_getElem?] using hc')
      exact hv1 c' hcmem

/-- C2 (amended): the fixed-capacity invariant — exactly `capacity`
entries, keyed `0 .. capacity-1`, each slot empty or holding one valid
config — is preserved by every public operation that completes
successfully PROVIDED index arguments are nonnegative: `set_station` and
`delete_station` with `0 ≤ i`, `append_station`, `clear_config`, and a
successful decode.  (With a negative index the bound check passes and
`set_station` grows the dict past the capacity — the counterexample.) -/
theorem registry_invariant_preserved (p : BtechUvProProgrammer)
    (h : wf p) :
    (∀ (i : Int) (c : RadioChannelConfig) (p' : BtechUvProProgrammer),
        0 ≤ i → validCfg c → set_station p i c = .ok p' → wf p') ∧
      (∀ (i : Int) (p' : BtechUvProProgrammer),
        0 ≤ i → delete_station p i = .ok p' → wf p') ∧
      (∀ (c : RadioChannelConfig) (p' : BtechUvProProgrammer),
        validCfg c → append_station p c = .ok p' → wf p') ∧
      wf (clear_config p) ∧
      (∀ (rows : List (List String)) (p' : BtechUvProProgrammer),
        load_csv_config p rows = (p', none) → wf p') :=
  ⟨fun _ _ _ hi hv hs => set_station_wf h hi hv hs,
    fun _ _ hi hs => delete_station_wf h hi hs,
    fun _ _ hv hs => append_station_wf h hv hs,
    clear_config_wf p,
    fun _ _ hs => load_csv_wf hs⟩

/-- Witness for C2 at a concrete registry: a fresh capacity-2 registry is
well-formed and the preservation statement holds of it. -/
theorem registry_invariant_preserved_witness :
    wf (newProgrammer 2) ∧
      ((∀ (i : Int) (c : RadioChannelConfig) (p' : BtechUvProProgrammer),
          0 ≤ i → validCfg c →
          set_station (newProgrammer 2) i c = .ok p' → wf p') ∧
        (∀ (i : Int) (p' : BtechUvProProgrammer),
          0 ≤ i → delete_station (newProgrammer 2) i = .ok p' → wf p') ∧
        (∀ (c : RadioChannelConfig) (p' : BtechUvProProgrammer),
          validCfg c → append_station (newProgrammer 2) c = .ok p' → wf p') ∧
        wf (clear_config (newProgrammer 2)) ∧
        (∀ (rows : List (List String)) (p' : BtechUvProProgrammer),
          load_csv_config (newProgrammer 2) rows = (p', none) → wf p')) :=
  ⟨by decide, registry_invariant_preserved (newProgrammer 2) (by decide)⟩
